import Mathlib

/-!
Verification of the worker-side half of the cluster round-robin
connection-distribution protocol (lib/internal/cluster/child.js).

The embedding below translates the source into Lean:

* `IndexSet`, `lookupIS`/`setIS`/`deleteIS` model the `indexes` SafeMap
  (ListenerIndexAllocator), `getServerIndex` the allocation fragment of
  `cluster._getServer` (lines 77-84), and `removeIndexesKey` the function of
  the same name (lines 120-130).
* `RHandle`/`getHandle`/`deleteKey` model the `handles` SafeMap
  (HandleRegistry); `FauxHandle` models the closure state of the round-robin
  faux handle (`key`, `indexesKey`, `index`, `message.sockname`), with
  `FauxHandle.close` and `FauxHandle.getsockname` translated from lines
  163-181; `rr` (lines 151-196) and `sharedRegister` (lines 145-147) are the
  two registration paths; `onconnection` is lines 199-207.
* The `_disconnect` drain (lines 213-242) is split into its synchronous part
  `disconnectSync` (set `exitedAfterDisconnect`, initiate a close per handle
  preferring the `owner_symbol` owner, clear the registry) and the
  `waitingCount` dynamics: `checkWaitingCount` is the inner function of the
  same name (lines 217-231) and `runTrace` executes it over an arbitrary
  schedule of counter events (`DEv`): one `inc` per `waitingCount++` in the
  `forEach`, one `comp` per close-completion callback, and `finalDec` for the
  single synchronous `checkWaitingCount()` call at line 241.  `ValidTrace`
  characterises exactly the schedules the event loop can produce: K
  increments, K completions each after some increment, and the final
  decrement after all increments.
* `Worker.disconnect` / `onmessageDisconnect` / `Worker.destroy` model the
  entry points at lines 53-57, 245-252 and 254-265.
-/

namespace ClusterChild

/-- Socket name cached from the registration reply (`message.sockname`). -/
structure Sockname where
  address : String
  port : Nat
deriving DecidableEq, Repr

/-- Closure state of the round-robin faux handle: the mutable `key`
(`none` once closed), the captured `indexesKey` and `index`, and the
cached `message.sockname`. -/
structure FauxHandle where
  key : Option Nat
  indexesKey : String
  index : Nat
  sockname : Option Sockname
deriving DecidableEq, Repr

/-- The value stored in the handle registry: either a real OS listening
handle (shared path) or the faux handle (round-robin path). -/
inductive HKind where
  | osHandle : Nat → HKind
  | faux : FauxHandle → HKind
deriving DecidableEq, Repr

/-- A registry entry together with its optional `owner_symbol` owner
(assigned externally by net/dgram when the listener adopts the handle). -/
structure RHandle where
  kind : HKind
  owner : Option Nat
deriving DecidableEq, Repr

/-- Per-endpoint allocator state: `nextIndex` is the monotonic counter,
`set` the currently live indices (insertion order, as a JS Set). -/
structure IndexSet where
  nextIndex : Nat
  set : List Nat
deriving DecidableEq, Repr

/-- Messages this core sends to the primary. -/
inductive Msg where
  | closeMsg : Nat → Msg
  | ack : Nat → Bool → Msg
deriving DecidableEq, Repr

/-- Observable events: an outbound send, or local delivery of a forwarded
connection to the listener registered under a key
(`server.onconnection(0, handle)`). -/
inductive Ev where
  | sent : Msg → Ev
  | delivered : Nat → Ev
deriving DecidableEq, Repr

/-- The worker-process-wide mutable state: the `handles` map, the `indexes`
map, and the trace of observable events in program order. -/
structure ChildState where
  handles : List (Nat × RHandle)
  indexes : List (String × IndexSet)
  events : List Ev
deriving DecidableEq, Repr

/-- `handles.get(key)` (SafeMap lookup). -/
def getHandle : List (Nat × RHandle) → Nat → Option RHandle
  | [], _ => none
  | p :: r, k => if p.1 = k then some p.2 else getHandle r k

/-- `handles.has(key)`. -/
def hasKey (hs : List (Nat × RHandle)) (k : Nat) : Bool :=
  (getHandle hs k).isSome

/-- `handles.delete(key)`. -/
def deleteKey (hs : List (Nat × RHandle)) (k : Nat) : List (Nat × RHandle) :=
  hs.filter (fun p => p.1 ≠ k)

/-- `indexes.get(indexesKey)`. -/
def lookupIS : List (String × IndexSet) → String → Option IndexSet
  | [], _ => none
  | p :: r, k => if p.1 = k then some p.2 else lookupIS r k

/-- `indexes.set(indexesKey, v)` (overwrite-or-insert). -/
def setIS (m : List (String × IndexSet)) (k : String) (v : IndexSet) :
    List (String × IndexSet) :=
  (k, v) :: m.filter (fun p => p.1 ≠ k)

/-- `indexes.delete(indexesKey)`. -/
def deleteIS (m : List (String × IndexSet)) (k : String) :
    List (String × IndexSet) :=
  m.filter (fun p => p.1 ≠ k)

/-- JS `Set.add`. -/
def setAdd (s : List Nat) (i : Nat) : List Nat :=
  if i ∈ s then s else s ++ [i]

/-- JS `Set.delete`. -/
def setDelete (s : List Nat) (i : Nat) : List Nat :=
  s.filter (fun j => j ≠ i)

/-- Index allocation fragment of `cluster._getServer` (lines 77-84): get or
lazily create the endpoint tuple entry, take `nextIndex`, post-increment it
and record the index live.  Returns the allocated index and the updated
`indexes` map. -/
def getServerIndex (m : List (String × IndexSet)) (k : String) :
    Nat × List (String × IndexSet) :=
  let indexSet := (lookupIS m k).getD { nextIndex := 0, set := [] }
  let index := indexSet.nextIndex
  (index, setIS m k { nextIndex := index + 1, set := setAdd indexSet.set index })

/-- `removeIndexesKey` (lines 120-130): delete the index from the tuple's
live set and garbage-collect the tuple entry once the set is empty. -/
def removeIndexesKey (m : List (String × IndexSet)) (k : String) (i : Nat) :
    List (String × IndexSet) :=
  match lookupIS m k with
  | none => m
  | some s =>
    let s2 : IndexSet := { s with set := setDelete s.set i }
    if s2.set.length = 0 then deleteIS m k else setIS m k s2

/-- The round-robin faux handle's `close` (lines 163-175).  Idempotent: if
`key` is already `undefined` it returns immediately; otherwise it sends
`{act: close, key}` to the primary, deletes the registry entry, releases the
allocated index and marks `key` undefined. -/
def FauxHandle.close (st : ChildState) (fh : FauxHandle) :
    ChildState × FauxHandle :=
  match fh.key with
  | none => (st, fh)
  | some k =>
    ({ st with
        events := st.events ++ [Ev.sent (Msg.closeMsg k)]
        handles := deleteKey st.handles k
        indexes := removeIndexesKey st.indexes fh.indexesKey fh.index },
     { fh with key := none })

/-- The faux handle's `getsockname(out)` (lines 177-181): when `key` is
still defined, `ObjectAssign(out, message.sockname)` overwrites `out` with
the cached socket name; the return value is 0 in every case. -/
def FauxHandle.getsockname (fh : FauxHandle) (out : Sockname) :
    Sockname × Int :=
  match fh.key, fh.sockname with
  | some _, some sn => (sn, 0)
  | _, _ => (out, 0)

/-- Outcome of a registration path: the callback invocation, or the
`assert(handles.has(key) === false)` firing. -/
inductive RegOutcome where
  | ok : RegOutcome
  | assertFailed : RegOutcome
deriving DecidableEq, Repr

/-- Registration step of the shared-handle path (lines 145-147): assert the
key is fresh, then store the handle.  A failed assertion aborts before the
map is touched, so the state is returned unchanged. -/
def sharedRegister (st : ChildState) (key : Nat) (h : RHandle) :
    ChildState × RegOutcome :=
  if hasKey st.handles key then (st, RegOutcome.assertFailed)
  else ({ st with handles := (key, h) :: st.handles }, RegOutcome.ok)

/-- The monkey-patched `close` installed on a shared handle (lines 139-144):
send the close notification, deregister, release the index, then delegate to
the original native close (outside this model). -/
def sharedClose (st : ChildState) (key : Nat) (indexesKey : String)
    (index : Nat) : ChildState :=
  { st with
      events := st.events ++ [Ev.sent (Msg.closeMsg key)]
      handles := deleteKey st.handles key
      indexes := removeIndexesKey st.indexes indexesKey index }

/-- Reply to a `queryServer` message: `{errno, key, sockname}`. -/
structure QueryReply where
  errno : Int
  key : Nat
  sockname : Option Sockname
deriving DecidableEq, Repr

/-- Outcome of the round-robin reply handler `rr`. -/
inductive RROutcome where
  | errCb : Int → RROutcome
  | assertFailed : RROutcome
  | okCb : FauxHandle → RROutcome
deriving DecidableEq, Repr

/-- `rr` (lines 151-196): on a nonzero `errno` invoke `cb(errno, null)` and
return (no handle built or registered, no index released); otherwise build
the faux handle, assert the key is fresh, register it and invoke
`cb(0, handle)`. -/
def rr (st : ChildState) (reply : QueryReply) (indexesKey : String)
    (index : Nat) : ChildState × RROutcome :=
  if reply.errno ≠ 0 then (st, RROutcome.errCb reply.errno)
  else
    let fh : FauxHandle :=
      { key := some reply.key, indexesKey := indexesKey, index := index
        sockname := reply.sockname }
    if hasKey st.handles reply.key then (st, RROutcome.assertFailed)
    else
      ({ st with
          handles :=
            (reply.key, { kind := HKind.faux fh, owner := none }) :: st.handles },
       RROutcome.okCb fh)

/-- `onconnection` (lines 199-207): look the key up, reply
`{ack: seq, accepted}` first, and only then, when accepted, hand the
connection to the registered listener.  The function is total: an absent
key never throws. -/
def onconnection (st : ChildState) (key : Nat) (seq : Nat) : ChildState :=
  let server := getHandle st.handles key
  let accepted := server.isSome
  let st1 := { st with events := st.events ++ [Ev.sent (Msg.ack seq accepted)] }
  match server with
  | some _ => { st1 with events := st1.events ++ [Ev.delivered key] }
  | none => st1

/-- Counter events of one `_disconnect` drain: `inc` is the
`waitingCount++` performed for a handle in the `forEach`, `comp` is one
close-completion callback running `checkWaitingCount`, and `finalDec` is
the single synchronous `checkWaitingCount()` call at the end (line 241). -/
inductive DEv where
  | inc : DEv
  | comp : DEv
  | finalDec : DEv
deriving DecidableEq, Repr

/-- Messages the drain can emit on reaching `waitingCount == 0`. -/
inductive DMsg where
  | exitedAfterDisconnect : DMsg
  | processDisconnect : DMsg
deriving DecidableEq, Repr

/-- `checkWaitingCount` (lines 217-231): decrement, and on zero either
request transport disconnect directly (primary initiated) or send the
`exitedAfterDisconnect` notification. -/
def checkWaitingCount (primaryInitiated : Bool) (wc : Int) : Int × List DMsg :=
  (wc - 1,
   if wc - 1 = 0 then
     [if primaryInitiated then DMsg.processDisconnect
      else DMsg.exitedAfterDisconnect]
   else [])

/-- Execute a schedule of counter events against `checkWaitingCount`,
collecting the messages emitted, starting from a given `waitingCount`. -/
def runTrace (primaryInitiated : Bool) : List DEv → Int → List DMsg
  | [], _ => []
  | DEv.inc :: r, wc => runTrace primaryInitiated r (wc + 1)
  | DEv.comp :: r, wc =>
    (checkWaitingCount primaryInitiated wc).2 ++
      runTrace primaryInitiated r (checkWaitingCount primaryInitiated wc).1
  | DEv.finalDec :: r, wc =>
    (checkWaitingCount primaryInitiated wc).2 ++
      runTrace primaryInitiated r (checkWaitingCount primaryInitiated wc).1

/-- Value of `waitingCount` after a schedule. -/
def wcAfter : List DEv → Int → Int
  | [], wc => wc
  | DEv.inc :: r, wc => wcAfter r (wc + 1)
  | DEv.comp :: r, wc => wcAfter r (wc - 1)
  | DEv.finalDec :: r, wc => wcAfter r (wc - 1)

/-- Number of `inc` events. -/
def incCount : List DEv → Nat
  | [] => 0
  | DEv.inc :: r => incCount r + 1
  | DEv.comp :: r => incCount r
  | DEv.finalDec :: r => incCount r

/-- Number of `comp` events. -/
def compCount : List DEv → Nat
  | [] => 0
  | DEv.inc :: r => compCount r
  | DEv.comp :: r => compCount r + 1
  | DEv.finalDec :: r => compCount r

/-- Number of `finalDec` events. -/
def finalCount : List DEv → Nat
  | [] => 0
  | DEv.inc :: r => finalCount r
  | DEv.comp :: r => finalCount r
  | DEv.finalDec :: r => finalCount r + 1

/-- Number of decrement events (`comp` or `finalDec`). -/
def decCount (l : List DEv) : Nat :=
  compCount l + finalCount l

/-- The schedules of one drain of `K` handles that the single-threaded
event loop can produce: `K` increments and `K` completions, every
completion after some matching increment (so in every prefix completions
never outnumber increments), and the final synchronous decrement placed
after the whole `forEach`, hence after all increments. -/
structure ValidTrace (K : Nat) (tr : List DEv) : Prop where
  incs : incCount tr = K
  comps : compCount tr = K
  finals : finalCount tr = 1
  ordered : ∀ n, n ≤ tr.length → compCount (tr.take n) ≤ incCount (tr.take n)
  finalLast : ∀ n, n ≤ tr.length →
    0 < finalCount (tr.take n) → incCount (tr.take n) = K

/-- Where a handle's close is routed during the drain: the
`owner_symbol` owner's close when present, else the handle's own close
(lines 236-237). -/
inductive CloseTarget where
  | ownerClose : Nat → CloseTarget
  | handleClose : HKind → CloseTarget
deriving DecidableEq, Repr

/-- `if (handle[owner_symbol]) handle[owner_symbol].close(...) else
handle.close(...)`. -/
def closeTarget (h : RHandle) : CloseTarget :=
  match h.owner with
  | some o => CloseTarget.ownerClose o
  | none => CloseTarget.handleClose h.kind

/-- Synchronous effects of `_disconnect` (lines 213-242) besides the
counter: set `exitedAfterDisconnect`, initiate one close per live handle,
and clear the registry immediately. -/
structure DisconnectSync where
  exitedAfterDisconnect : Bool
  initiations : List CloseTarget
  handlesAfter : List (Nat × RHandle)
deriving DecidableEq, Repr

/-- The synchronous part of `_disconnect`, as a function of the live
`handles` entries. -/
def disconnectSync (hs : List (Nat × RHandle)) : DisconnectSync :=
  { exitedAfterDisconnect := true
    initiations := hs.map (fun kh => closeTarget kh.2)
    handlesAfter := [] }

/-- Worker states used by the disconnect/destroy state machine. -/
inductive WState where
  | online
  | listening
  | disconnecting
  | destroying
deriving DecidableEq, Repr

/-- The worker identity object: `state`, the `exitedAfterDisconnect` flag
and whether the transport channel is connected (`isConnected()`). -/
structure Worker where
  state : WState
  exitedAfterDisconnect : Bool
  connected : Bool
deriving DecidableEq, Repr

/-- Result of a disconnect entry point: the updated worker and, when the
`_disconnect` drain was invoked, its `primaryInitiated` flag. -/
structure DisconnectEntry where
  worker : Worker
  started : Option Bool
deriving DecidableEq, Repr

/-- `Worker.prototype.disconnect` (lines 245-252): guarded by the state
check; when neither `disconnecting` nor `destroying`, set state to
`disconnecting` and run `_disconnect` with `primaryInitiated = false`. -/
def Worker.disconnect (w : Worker) : DisconnectEntry :=
  if w.state ≠ WState.disconnecting ∧ w.state ≠ WState.destroying then
    { worker := { w with state := WState.disconnecting }
      started := some false }
  else { worker := w, started := none }

/-- The `act == disconnect` arm of `onmessage` (lines 55-56): invokes
`_disconnect` with `primaryInitiated = true`, unconditionally. -/
def onmessageDisconnect (w : Worker) : DisconnectEntry :=
  { worker := w, started := some true }

/-- Effects of `Worker.prototype.destroy`. -/
inductive DestroyEff where
  | processExit : Nat → DestroyEff
  | sendExitedAfterDisconnect : DestroyEff
  | exitOnTransportDisconnect : DestroyEff
deriving DecidableEq, Repr

/-- `Worker.prototype.destroy` (lines 254-265): no-op when already
`destroying`; otherwise set `exitedAfterDisconnect`, and either exit the
process immediately with status 0 when the channel is not connected, or
mark `destroying`, send the exited-notification and exit on transport
disconnect. -/
def Worker.destroy (w : Worker) : Worker × List DestroyEff :=
  if w.state = WState.destroying then (w, [])
  else
    let w1 := { w with exitedAfterDisconnect := true }
    if w1.connected = false then (w1, [DestroyEff.processExit 0])
    else
      ({ w1 with state := WState.destroying },
       [DestroyEff.sendExitedAfterDisconnect,
        DestroyEff.exitOnTransportDisconnect])

/-- Operations on the allocator for one fixed endpoint tuple: an
allocation (the index fragment of `cluster._getServer`) or a release
(`removeIndexesKey`). -/
inductive AllocOp where
  | alloc : AllocOp
  | release : Nat → AllocOp
deriving DecidableEq, Repr

/-- Run a sequence of allocator operations against the `indexes` map for a
fixed tuple key, collecting the indices the allocations returned. -/
def runOps (k : String) : List AllocOp → List (String × IndexSet) →
    List Nat × List (String × IndexSet)
  | [], m => ([], m)
  | AllocOp.alloc :: r, m =>
    ((getServerIndex m k).1 :: (runOps k r (getServerIndex m k).2).1,
     (runOps k r (getServerIndex m k).2).2)
  | AllocOp.release i :: r, m => runOps k r (removeIndexesKey m k i)

/-- Holds when no operation of the run garbage-collects the tuple's
bookkeeping entry: after every release the entry is still present (its
live set did not become empty). -/
def gcFree (k : String) : List AllocOp → List (String × IndexSet) → Bool
  | [], _ => true
  | AllocOp.alloc :: r, m => gcFree k r (getServerIndex m k).2
  | AllocOp.release i :: r, m =>
    (lookupIS (removeIndexesKey m k i) k).isSome &&
      gcFree k r (removeIndexesKey m k i)

/-- The `nextIndex` a fresh allocation for the tuple would return. -/
def nextOf (m : List (String × IndexSet)) (k : String) : Nat :=
  match lookupIS m k with
  | some s => s.nextIndex
  | none => 0

theorem incCount_append (a b : List DEv) :
    incCount (a ++ b) = incCount a + incCount b := by
  induction a with
  | nil => simp [incCount]
  | cons e r ih => cases e <;> simp [incCount, ih] <;> omega

theorem compCount_append (a b : List DEv) :
    compCount (a ++ b) = compCount a + compCount b := by
  induction a with
  | nil => simp [compCount]
  | cons e r ih => cases e <;> simp [compCount, ih] <;> omega

theorem finalCount_append (a b : List DEv) :
    finalCount (a ++ b) = finalCount a + finalCount b := by
  induction a with
  | nil => simp [finalCount]
  | cons e r ih => cases e <;> simp [finalCount, ih] <;> omega

theorem counts_length (l : List DEv) :
    incCount l + compCount l + finalCount l = l.length := by
  induction l with
  | nil => simp [incCount, compCount, finalCount]
  | cons e r ih => cases e <;> simp [incCount, compCount, finalCount] <;> omega

theorem finalCount_take_le (l : List DEv) (n : Nat) :
    finalCount (l.take n) ≤ finalCount l := by
  conv_rhs => rw [← List.take_append_drop n l]
  rw [finalCount_append]
  omega

theorem wcAfter_eq (l : List DEv) : ∀ wc : Int,
    wcAfter l wc = wc + incCount l - decCount l := by
  induction l with
  | nil => intro wc; simp [wcAfter, incCount, decCount, compCount, finalCount]
  | cons e r ih =>
    intro wc
    cases e <;>
      simp [wcAfter, incCount, decCount, compCount, finalCount, ih] <;>
      push_cast <;> ring

theorem runTrace_append (pI : Bool) (a b : List DEv) : ∀ wc : Int,
    runTrace pI (a ++ b) wc =
      runTrace pI a wc ++ runTrace pI b (wcAfter a wc) := by
  induction a with
  | nil => intro wc; simp [runTrace, wcAfter]
  | cons e r ih =>
    intro wc
    cases e <;> simp [runTrace, wcAfter, checkWaitingCount, ih]

theorem runTrace_noEmit (pI : Bool) : ∀ (tr : List DEv) (wc : Int),
    (∀ n, n ≤ tr.length →
      (decCount (tr.take n) : Int) < wc + incCount (tr.take n)) →
    runTrace pI tr wc = [] := by
  intro tr
  induction tr with
  | nil => intro wc _; rfl
  | cons e r ih =>
    intro wc h
    have h1 := h 1 (by simp)
    cases e with
    | inc =>
      simp only [runTrace]
      apply ih
      intro n hn
      have h2 := h (n + 1) (by simpa using Nat.succ_le_succ hn)
      simp [List.take_succ_cons, incCount, decCount, compCount, finalCount]
        at h2 ⊢
      omega
    | comp =>
      simp [List.take_succ_cons, incCount, decCount, compCount, finalCount,
        List.take_nil] at h1
      have hne : wc - 1 ≠ 0 := by omega
      simp [runTrace, checkWaitingCount, hne]
      apply ih
      intro n hn
      have h2 := h (n + 1) (by simpa using Nat.succ_le_succ hn)
      simp [List.take_succ_cons, incCount, decCount, compCount, finalCount]
        at h2 ⊢
      omega
    | finalDec =>
      simp [List.take_succ_cons, incCount, decCount, compCount, finalCount,
        List.take_nil] at h1
      have hne : wc - 1 ≠ 0 := by omega
      simp [runTrace, checkWaitingCount, hne]
      apply ih
      intro n hn
      have h2 := h (n + 1) (by simpa using Nat.succ_le_succ hn)
      simp [List.take_succ_cons, incCount, decCount, compCount, finalCount]
        at h2 ⊢
      omega

theorem takeDecLt (K : Nat) (tr : List DEv) (hv : ValidTrace K tr)
    (j : Nat) (hj : j < tr.length) :
    (decCount (tr.take j) : Int) < 1 + incCount (tr.take j) := by
  have hord := hv.ordered j (le_of_lt hj)
  have hfin := hv.finalLast j (le_of_lt hj)
  have hle : finalCount (tr.take j) ≤ finalCount tr := finalCount_take_le tr j
  have hlen := counts_length tr
  have hlenj := counts_length (tr.take j)
  have htl : (tr.take j).length ≤ j := by
    simp [List.length_take]
  have hi := hv.incs
  have hc := hv.comps
  have hf := hv.finals
  rcases Nat.eq_zero_or_pos (finalCount (tr.take j)) with h0 | hpos
  · simp [decCount, h0]
    omega
  · have hK := hfin hpos
    simp only [decCount]
    push_cast
    omega

theorem noEmitProper (pI : Bool) (K : Nat) (tr : List DEv)
    (hv : ValidTrace K tr) (n : Nat) (hn : n < tr.length) :
    runTrace pI (tr.take n) 1 = [] := by
  apply runTrace_noEmit
  intro m _
  rw [List.take_take]
  exact takeDecLt K tr hv (min m n)
    (lt_of_le_of_lt (min_le_right m n) hn)

theorem runTrace_valid (pI : Bool) (K : Nat) (tr : List DEv)
    (hv : ValidTrace K tr) :
    runTrace pI tr 1 =
      [if pI then DMsg.processDisconnect else DMsg.exitedAfterDisconnect] := by
  rcases List.eq_nil_or_concat tr with hnil | ⟨p, e, hpe⟩
  · exfalso
    have hf := hv.finals
    rw [hnil] at hf
    simp [finalCount] at hf
  · rw [List.concat_eq_append] at hpe
    subst hpe
    have hprefix : runTrace pI p 1 = [] := by
      have hlt : p.length < (p ++ [e]).length := by simp
      have hne := noEmitProper pI K (p ++ [e]) hv p.length hlt
      rwa [List.take_left] at hne
    have hi := hv.incs
    have hc := hv.comps
    have hf := hv.finals
    rw [incCount_append] at hi
    rw [compCount_append] at hc
    rw [finalCount_append] at hf
    rw [runTrace_append, hprefix, List.nil_append]
    cases e with
    | inc =>
      exfalso
      have hord := hv.ordered p.length (by simp)
      rw [List.take_left] at hord
      simp [incCount, compCount, finalCount] at hi hc hf
      omega
    | comp =>
      simp [incCount, compCount, finalCount] at hi hc hf
      have hwc : wcAfter p 1 = 1 := by
        rw [wcAfter_eq]
        simp only [decCount]
        push_cast
        omega
      rw [hwc]
      norm_num [runTrace, checkWaitingCount]
    | finalDec =>
      simp [incCount, compCount, finalCount] at hi hc hf
      have hwc : wcAfter p 1 = 1 := by
        rw [wcAfter_eq]
        simp only [decCount]
        push_cast
        omega
      rw [hwc]
      norm_num [runTrace, checkWaitingCount]

theorem lookupIS_setIS (m : List (String × IndexSet)) (k : String)
    (v : IndexSet) : lookupIS (setIS m k v) k = some v := by
  simp [setIS, lookupIS]

theorem lookupIS_deleteIS (m : List (String × IndexSet)) (k : String) :
    lookupIS (deleteIS m k) k = none := by
  induction m with
  | nil => rfl
  | cons p r ih =>
    by_cases h : p.1 = k
    · simpa [deleteIS, List.filter_cons, h] using ih
    · simpa [deleteIS, List.filter_cons, h, lookupIS] using ih

theorem getServerIndex_fst (m : List (String × IndexSet)) (k : String) :
    (getServerIndex m k).1 = nextOf m k := by
  cases h : lookupIS m k <;> simp [getServerIndex, nextOf, h]

theorem nextOf_getServerIndex (m : List (String × IndexSet)) (k : String) :
    nextOf (getServerIndex m k).2 k = nextOf m k + 1 := by
  cases h : lookupIS m k <;>
    simp [getServerIndex, nextOf, h, lookupIS_setIS]

theorem nextOf_removeIndexesKey (m : List (String × IndexSet)) (k : String)
    (i : Nat)
    (h : (lookupIS (removeIndexesKey m k i) k).isSome = true) :
    nextOf (removeIndexesKey m k i) k = nextOf m k := by
  rcases hm : lookupIS m k with _ | s
  · simp [removeIndexesKey, hm]
  · by_cases hz : (setDelete s.set i).length = 0
    · exfalso
      simp [removeIndexesKey, hm, hz, lookupIS_deleteIS] at h
    · simp [removeIndexesKey, hm, hz, nextOf, lookupIS_setIS]

theorem runOps_increasing (k : String) : ∀ (ops : List AllocOp)
    (m : List (String × IndexSet)), gcFree k ops m = true →
    (∀ i ∈ (runOps k ops m).1, nextOf m k ≤ i) ∧
      (runOps k ops m).1.Pairwise (fun a b => a < b) := by
  intro ops
  induction ops with
  | nil => intro m _; simp [runOps]
  | cons op r ih =>
    intro m hgc
    cases op with
    | alloc =>
      simp only [runOps, gcFree] at hgc ⊢
      obtain ⟨ihb, ihp⟩ := ih (getServerIndex m k).2 hgc
      constructor
      · intro i hi
        rcases List.mem_cons.mp hi with rfl | hi2
        · rw [getServerIndex_fst]
        · have hb := ihb i hi2
          rw [nextOf_getServerIndex] at hb
          omega
      · rw [List.pairwise_cons]
        refine ⟨?_, ihp⟩
        intro b hb
        have hbb := ihb b hb
        rw [nextOf_getServerIndex] at hbb
        rw [getServerIndex_fst]
        omega
    | release i =>
      simp only [runOps, gcFree, Bool.and_eq_true] at hgc ⊢
      obtain ⟨hsurv, hgc2⟩ := hgc
      obtain ⟨ihb, ihp⟩ := ih (removeIndexesKey m k i) hgc2
      refine ⟨?_, ihp⟩
      intro j hj
      have hb := ihb j hj
      rwa [nextOf_removeIndexesKey m k i hsurv] at hb

/-- C1: for K live registered handles, a worker-initiated `_disconnect`
(`primaryInitiated = false`) initiates a close for every handle — routed to
the handle's `owner_symbol` owner's close when present, else the handle's
own close — sets `exitedAfterDisconnect` and clears the registry; and for
every schedule of close completions the event loop can produce
(`ValidTrace`), the `exitedAfterDisconnect` notification is emitted exactly
once, only at the very last counter event: no proper prefix of the
schedule, in particular none in which some completion callback or the
final synchronous decrement is still outstanding, emits anything. -/
theorem c1_disconnect_drains (K : Nat) (hs : List (Nat × RHandle))
    (hK : hs.length = K) (tr : List DEv) (hv : ValidTrace K tr) :
    ((disconnectSync hs).initiations.length = K ∧
      (∀ kh ∈ hs, closeTarget kh.2 ∈ (disconnectSync hs).initiations) ∧
      (disconnectSync hs).exitedAfterDisconnect = true ∧
      (disconnectSync hs).handlesAfter = []) ∧
    runTrace false tr 1 = [DMsg.exitedAfterDisconnect] ∧
    (∀ n, n < tr.length → runTrace false (tr.take n) 1 = []) := by
  refine ⟨⟨?_, ?_, rfl, rfl⟩, ?_, ?_⟩
  · simp [disconnectSync, hK]
  · intro kh hkh
    exact List.mem_map_of_mem _ hkh
  · simpa using runTrace_valid false K tr hv
  · intro n hn
    exact noEmitProper false K tr hv n hn

/-- Two concrete live handles for the C1 witness: one with an
`owner_symbol` owner, one without. -/
def wHandles : List (Nat × RHandle) :=
  [(1, { kind := HKind.osHandle 10, owner := some 7 }),
   (2, { kind := HKind.faux { key := some 2, indexesKey := "a:1:4:u",
                              index := 0, sockname := none },
         owner := none })]

/-- An interleaved completion schedule for K = 2: the first close
completes synchronously before the second increment, the second
completion arrives only after the final synchronous decrement. -/
def wTrace : List DEv :=
  [DEv.inc, DEv.comp, DEv.inc, DEv.finalDec, DEv.comp]

/-- Witness for C1 at K = 2 with an interleaved completion schedule. -/
theorem c1_disconnect_drains_witness :
    (wHandles.length = 2 ∧ ValidTrace 2 wTrace) ∧
    ((disconnectSync wHandles).initiations.length = 2 ∧
      (∀ kh ∈ wHandles, closeTarget kh.2 ∈ (disconnectSync wHandles).initiations) ∧
      (disconnectSync wHandles).exitedAfterDisconnect = true ∧
      (disconnectSync wHandles).handlesAfter = []) ∧
    runTrace false wTrace 1 = [DMsg.exitedAfterDisconnect] ∧
    (∀ n, n < wTrace.length → runTrace false (wTrace.take n) 1 = []) :=
  have hv : ValidTrace 2 wTrace :=
    ⟨by decide, by decide, by decide, by decide, by decide⟩
  ⟨⟨rfl, hv⟩, c1_disconnect_drains 2 wHandles rfl wTrace hv⟩

/-- A worker already in the `disconnecting` state. -/
def wDisconnecting : Worker :=
  { state := WState.disconnecting, exitedAfterDisconnect := true
    connected := true }

/-- C2 is false as stated: the primary-initiated entry path (the
`act == disconnect` arm of `onmessage`, lines 55-56) has no state guard.
At a worker whose state is already `disconnecting` it still invokes the
`_disconnect` drain with `primaryInitiated = true`, and with no live
handles the drain's one valid schedule `[finalDec]` immediately requests
transport-level disconnect — not a no-op. -/
theorem c2_counterexample_entry_guard :
    (onmessageDisconnect wDisconnecting).started = some true ∧
    ValidTrace 0 [DEv.finalDec] ∧
    runTrace true [DEv.finalDec] 1 = [DMsg.processDisconnect] := by
  refine ⟨rfl, ⟨by decide, by decide, by decide, by decide, by decide⟩, rfl⟩

/-- C2 amended: only the worker-initiated `disconnect()` entry is guarded —
when the state is already `disconnecting` or `destroying` it is a no-op
(worker unchanged, `_disconnect` not invoked, so no closes, sends or
transport disconnect).  The primary-initiated `act == disconnect` message
invokes the drain unconditionally, whatever the state. -/
theorem c2_amended_entry_guard (w : Worker)
    (h : w.state = WState.disconnecting ∨ w.state = WState.destroying) :
    Worker.disconnect w = { worker := w, started := none } ∧
    ∀ w2 : Worker, (onmessageDisconnect w2).started = some true := by
  constructor
  · rcases h with h | h <;> simp [Worker.disconnect, h]
  · intro w2
    rfl

/-- Witness for the amended C2 at a concrete disconnecting worker. -/
theorem c2_amended_entry_guard_witness :
    (wDisconnecting.state = WState.disconnecting ∨
      wDisconnecting.state = WState.destroying) ∧
    (Worker.disconnect wDisconnecting =
        { worker := wDisconnecting, started := none } ∧
      ∀ w2 : Worker, (onmessageDisconnect w2).started = some true) :=
  ⟨Or.inl rfl, c2_amended_entry_guard wDisconnecting (Or.inl rfl)⟩

/-- C3: an inbound `newconn` whose key is absent from the registry only
appends the `ack(seq, accepted = false)` send — no delivery, no other state
change — and the (total, hence non-throwing) handler always places the
acknowledgement send before any local delivery of the connection: every
event after the ack in the handler's output is the local delivery for that
key. -/
theorem c3_newconn_reject (st : ChildState) (key seq : Nat)
    (h : getHandle st.handles key = none) :
    onconnection st key seq =
      { st with events := st.events ++ [Ev.sent (Msg.ack seq false)] } ∧
    ∀ (st2 : ChildState) (k2 s2 : Nat), ∃ tail : List Ev,
      (onconnection st2 k2 s2).events =
        st2.events ++
          Ev.sent (Msg.ack s2 (getHandle st2.handles k2).isSome) :: tail ∧
      ∀ e ∈ tail, e = Ev.delivered k2 := by
  constructor
  · simp [onconnection, h]
  · intro st2 k2 s2
    cases h2 : getHandle st2.handles k2 with
    | none =>
      refine ⟨[], by simp [onconnection, h2], by simp⟩
    | some srv =>
      refine ⟨[Ev.delivered k2], by simp [onconnection, h2], by simp⟩

/-- A state whose registry holds one entry, under key 3. -/
def wSt3 : ChildState :=
  { handles := [(3, { kind := HKind.osHandle 10, owner := none })]
    indexes := [], events := [] }

/-- Witness for C3: key 5 is absent from a registry holding only key 3. -/
theorem c3_newconn_reject_witness :
    getHandle wSt3.handles 5 = none ∧
    (onconnection wSt3 5 9 =
        { wSt3 with events := wSt3.events ++ [Ev.sent (Msg.ack 9 false)] } ∧
      ∀ (st2 : ChildState) (k2 s2 : Nat), ∃ tail : List Ev,
        (onconnection st2 k2 s2).events =
          st2.events ++
            Ev.sent (Msg.ack s2 (getHandle st2.handles k2).isSome) :: tail ∧
        ∀ e ∈ tail, e = Ev.delivered k2) :=
  ⟨rfl, c3_newconn_reject wSt3 5 9 rfl⟩

/-- C4: closing an open faux handle sends exactly one close notification,
deletes the registry entry, releases the allocated index and marks the key
undefined; a second close is a complete no-op (it returns immediately
because `key` is now undefined), so nothing is sent, removed or released
twice. -/
theorem c4_idempotent_close (st : ChildState) (fh : FauxHandle) (k : Nat)
    (h : fh.key = some k) :
    (FauxHandle.close st fh).1.events =
      st.events ++ [Ev.sent (Msg.closeMsg k)] ∧
    (FauxHandle.close st fh).1.handles = deleteKey st.handles k ∧
    (FauxHandle.close st fh).1.indexes =
      removeIndexesKey st.indexes fh.indexesKey fh.index ∧
    (FauxHandle.close st fh).2.key = none ∧
    FauxHandle.close (FauxHandle.close st fh).1 (FauxHandle.close st fh).2 =
      FauxHandle.close st fh := by
  refine ⟨?_, ?_, ?_, ?_, ?_⟩ <;> simp [FauxHandle.close, h]

/-- An open faux handle registered under key 3 with a live index. -/
def wFh4 : FauxHandle :=
  { key := some 3, indexesKey := "a:1:4:u", index := 0, sockname := none }

/-- A state holding the faux handle of `wFh4` and its live index. -/
def wSt4 : ChildState :=
  { handles := [(3, { kind := HKind.faux wFh4, owner := none })]
    indexes := [("a:1:4:u", { nextIndex := 1, set := [0] })]
    events := [] }

/-- Witness for C4 at a concrete open faux handle. -/
theorem c4_idempotent_close_witness :
    wFh4.key = some 3 ∧
    ((FauxHandle.close wSt4 wFh4).1.events =
        wSt4.events ++ [Ev.sent (Msg.closeMsg 3)] ∧
      (FauxHandle.close wSt4 wFh4).1.handles = deleteKey wSt4.handles 3 ∧
      (FauxHandle.close wSt4 wFh4).1.indexes =
        removeIndexesKey wSt4.indexes wFh4.indexesKey wFh4.index ∧
      (FauxHandle.close wSt4 wFh4).2.key = none ∧
      FauxHandle.close (FauxHandle.close wSt4 wFh4).1
          (FauxHandle.close wSt4 wFh4).2 =
        FauxHandle.close wSt4 wFh4) :=
  ⟨rfl, c4_idempotent_close wSt4 wFh4 3 rfl⟩

/-- C5: registering a second handle under a key already present fails the
`assert(handles.has(key) === false)` in both the shared-handle path and the
round-robin reply path, and the failed attempt leaves the registry
unchanged: the key is still mapped to the first handle. -/
theorem c5_no_double_registration (st : ChildState) (key : Nat)
    (h0 : RHandle) (hmem : getHandle st.handles key = some h0)
    (hNew : RHandle) (reply : QueryReply) (hkey : reply.key = key)
    (herr : reply.errno = 0) (ik : String) (idx : Nat) :
    sharedRegister st key hNew = (st, RegOutcome.assertFailed) ∧
    rr st reply ik idx = (st, RROutcome.assertFailed) ∧
    getHandle (sharedRegister st key hNew).1.handles key = some h0 ∧
    getHandle (rr st reply ik idx).1.handles key = some h0 := by
  have hk : hasKey st.handles key = true := by simp [hasKey, hmem]
  refine ⟨?_, ?_, ?_, ?_⟩ <;>
    simp [sharedRegister, rr, hk, hkey, herr, hmem]

/-- The first handle registered under key 3 in `wSt3`. -/
def wFirstHandle : RHandle := { kind := HKind.osHandle 10, owner := none }

/-- A second, different handle for the duplicate-registration attempt. -/
def wSecondHandle : RHandle := { kind := HKind.osHandle 11, owner := none }

/-- Witness for C5: both registration paths fail on occupied key 3 and the
registry still maps 3 to the first handle. -/
theorem c5_no_double_registration_witness :
    getHandle wSt3.handles 3 = some wFirstHandle ∧
    (sharedRegister wSt3 3 wSecondHandle = (wSt3, RegOutcome.assertFailed) ∧
      rr wSt3 { errno := 0, key := 3, sockname := none } "a:1:4:u" 0 =
        (wSt3, RROutcome.assertFailed) ∧
      getHandle (sharedRegister wSt3 3 wSecondHandle).1.handles 3 =
        some wFirstHandle ∧
      getHandle (rr wSt3 { errno := 0, key := 3, sockname := none }
          "a:1:4:u" 0).1.handles 3 = some wFirstHandle) :=
  ⟨rfl, c5_no_double_registration wSt3 3 wFirstHandle rfl wSecondHandle
    { errno := 0, key := 3, sockname := none } rfl rfl ("a:1:4:u") 0⟩

/-- C6: when the drain runs with `primaryInitiated = true`, reaching
`waitingCount == 0` requests transport-level disconnect
(`process.disconnect()`) directly, and no `exitedAfterDisconnect` message
is emitted at any point of any schedule the event loop can produce. -/
theorem c6_primary_initiated_drain (K : Nat) (tr : List DEv)
    (hv : ValidTrace K tr) :
    runTrace true tr 1 = [DMsg.processDisconnect] ∧
    ∀ n, n ≤ tr.length →
      DMsg.exitedAfterDisconnect ∉ runTrace true (tr.take n) 1 := by
  have hall : runTrace true tr 1 = [DMsg.processDisconnect] := by
    simpa using runTrace_valid true K tr hv
  refine ⟨hall, ?_⟩
  intro n hn
  rcases lt_or_eq_of_le hn with hlt | heq
  · rw [noEmitProper true K tr hv n hlt]
    simp
  · rw [heq, List.take_length, hall]
    simp

/-- A completion schedule for K = 1 where the close completes only after
the final synchronous decrement. -/
def wTrace6 : List DEv := [DEv.inc, DEv.finalDec, DEv.comp]

/-- Witness for C6 at K = 1. -/
theorem c6_primary_initiated_drain_witness :
    ValidTrace 1 wTrace6 ∧
    (runTrace true wTrace6 1 = [DMsg.processDisconnect] ∧
      ∀ n, n ≤ wTrace6.length →
        DMsg.exitedAfterDisconnect ∉ runTrace true (wTrace6.take n) 1) :=
  have hv : ValidTrace 1 wTrace6 :=
    ⟨by decide, by decide, by decide, by decide, by decide⟩
  ⟨hv, c6_primary_initiated_drain 1 wTrace6 hv⟩

/-- A fixed endpoint tuple key for the allocator claims. -/
def wTupleKey : String := "0.0.0.0:8000:4:undefined"

/-- C7 is false as stated: two sequential allocations on the same endpoint
tuple with a release in between that empties the live set — so
`removeIndexesKey` garbage-collects the tuple's bookkeeping entry — both
return index 0.  The indices are not pairwise distinct across the
garbage collection, because the recreated entry restarts `nextIndex` at
0. -/
theorem c7_counterexample_index_reuse :
    (runOps wTupleKey
        [AllocOp.alloc, AllocOp.release 0, AllocOp.alloc] []).1 = [0, 0] ∧
    ¬ ((runOps wTupleKey
        [AllocOp.alloc, AllocOp.release 0, AllocOp.alloc] []).1.Pairwise
          (fun a b => a ≠ b)) := by
  constructor
  · rfl
  · decide

/-- C7 amended: sequential allocations on the same endpoint tuple,
arbitrarily interleaved with releases, yield pairwise-distinct (indeed
strictly increasing) indices provided no release empties the tuple's live
set — i.e. as long as the tuple's bookkeeping entry is never
garbage-collected between the calls.  Once the entry is removed because
its set became empty, `nextIndex` restarts at 0 and earlier indices can be
reissued. -/
theorem c7_amended_index_uniqueness (k : String) (ops : List AllocOp)
    (m : List (String × IndexSet)) (h : gcFree k ops m = true) :
    (runOps k ops m).1.Pairwise (fun a b => a ≠ b) := by
  exact ((runOps_increasing k ops m h).2).imp (fun hab => Nat.ne_of_lt hab)

/-- Witness for the amended C7: three allocations with a non-emptying
release in between yield the distinct indices 0, 1, 2. -/
theorem c7_amended_index_uniqueness_witness :
    gcFree wTupleKey
      [AllocOp.alloc, AllocOp.alloc, AllocOp.release 0, AllocOp.alloc] [] =
        true ∧
    (runOps wTupleKey
      [AllocOp.alloc, AllocOp.alloc, AllocOp.release 0, AllocOp.alloc]
        []).1.Pairwise (fun a b => a ≠ b) :=
  ⟨by decide,
   c7_amended_index_uniqueness wTupleKey
     [AllocOp.alloc, AllocOp.alloc, AllocOp.release 0, AllocOp.alloc] []
     (by decide)⟩

/-- C8: `destroy()` on a worker whose channel is not connected (and that
is not already mid-destroy) sets `exitedAfterDisconnect` and exits the
process immediately with status 0 — the effect list is exactly the exit:
no handle close, no outbound message, no graceful per-handle drain. -/
theorem c8_destroy_shortcut (w : Worker) (hc : w.connected = false)
    (hs : w.state ≠ WState.destroying) :
    Worker.destroy w =
      ({ w with exitedAfterDisconnect := true },
       [DestroyEff.processExit 0]) := by
  simp [Worker.destroy, hs, hc]

/-- An online worker whose transport channel is already disconnected. -/
def wOffline : Worker :=
  { state := WState.online, exitedAfterDisconnect := false
    connected := false }

/-- Witness for C8 at a concrete disconnected worker. -/
theorem c8_destroy_shortcut_witness :
    (wOffline.connected = false ∧ wOffline.state ≠ WState.destroying) ∧
    Worker.destroy wOffline =
      ({ wOffline with exitedAfterDisconnect := true },
       [DestroyEff.processExit 0]) :=
  ⟨⟨rfl, by decide⟩, c8_destroy_shortcut wOffline rfl (by decide)⟩

/-- A closed faux handle that still caches a socket name. -/
def wFh9closed : FauxHandle :=
  { key := none, indexesKey := "0.0.0.0:8000:4:undefined", index := 0
    sockname := some { address := "0.0.0.0", port := 8000 } }

/-- An output record distinct from the cached socket name. -/
def wOut9 : Sockname := { address := "", port := 0 }

/-- C9 is false as stated: on a closed faux handle (key undefined),
`getsockname` does not report a not-bound condition — it returns 0
(success) and leaves `out` unpopulated, exactly the behaviour the claim
rules out. -/
theorem c9_counterexample_getsockname :
    FauxHandle.getsockname wFh9closed wOut9 = (wOut9, 0) ∧ wOut9 ≠
      { address := "0.0.0.0", port := 8000 } := by
  constructor
  · rfl
  · decide

/-- C9 amended: while the handle is open, `getsockname` populates `out`
from the socket name cached from the registration reply and returns 0;
once the handle has been closed it still returns 0 (success) but leaves
`out` untouched — there is no not-bound error path. -/
theorem c9_amended_getsockname (fh : FauxHandle) (k : Nat) (sn : Sockname)
    (out : Sockname) (st : ChildState)
    (hk : fh.key = some k) (hsn : fh.sockname = some sn) :
    FauxHandle.getsockname fh out = (sn, 0) ∧
    FauxHandle.getsockname (FauxHandle.close st fh).2 out = (out, 0) := by
  constructor
  · simp [FauxHandle.getsockname, hk, hsn]
  · simp [FauxHandle.close, hk, FauxHandle.getsockname]

/-- An open faux handle caching a socket name, for the C9 witness. -/
def wFh9open : FauxHandle :=
  { key := some 4, indexesKey := "0.0.0.0:8000:4:undefined", index := 0
    sockname := some { address := "0.0.0.0", port := 8000 } }

/-- Witness for the amended C9 at a concrete open-then-closed handle. -/
theorem c9_amended_getsockname_witness :
    (wFh9open.key = some 4 ∧
      wFh9open.sockname = some { address := "0.0.0.0", port := 8000 }) ∧
    (FauxHandle.getsockname wFh9open wOut9 =
        ({ address := "0.0.0.0", port := 8000 }, 0) ∧
      FauxHandle.getsockname
          (FauxHandle.close { handles := [], indexes := [], events := [] }
            wFh9open).2 wOut9 = (wOut9, 0)) :=
  ⟨⟨rfl, rfl⟩,
   c9_amended_getsockname wFh9open 4 { address := "0.0.0.0", port := 8000 }
     wOut9 { handles := [], indexes := [], events := [] } rfl rfl⟩

/-- C10: a round-robin registration reply with nonzero `errno` invokes the
callback as `cb(errno, null)` and changes nothing: no handle is built or
registered under any key, and the index allocated for the query is not
released — it stays in the endpoint tuple's live set (nothing else can
release it, since `removeIndexesKey` is only reached from a handle's
close and no handle was created). -/
theorem c10_rr_error_path (st : ChildState) (reply : QueryReply)
    (h : reply.errno ≠ 0) (ik : String) (idx : Nat) (s : IndexSet)
    (hlive : lookupIS st.indexes ik = some s) (hmem : idx ∈ s.set) :
    rr st reply ik idx = (st, RROutcome.errCb reply.errno) ∧
    ∃ s2 : IndexSet,
      lookupIS (rr st reply ik idx).1.indexes ik = some s2 ∧
        idx ∈ s2.set := by
  have heq : rr st reply ik idx = (st, RROutcome.errCb reply.errno) := by
    simp [rr, h]
  exact ⟨heq, s, by rw [heq]; exact hlive, hmem⟩

/-- A state holding a live allocated index 0 for the endpoint tuple. -/
def wSt10 : ChildState :=
  { handles := []
    indexes := [("0.0.0.0:8000:4:undefined",
                 { nextIndex := 1, set := [0] })]
    events := [] }

/-- Witness for C10 at a concrete reply with errno = -98. -/
theorem c10_rr_error_path_witness :
    ((-98 : Int) ≠ 0 ∧
      lookupIS wSt10.indexes wTupleKey =
        some { nextIndex := 1, set := [0] } ∧
      0 ∈ ({ nextIndex := 1, set := [0] } : IndexSet).set) ∧
    (rr wSt10 { errno := -98, key := 9, sockname := none } wTupleKey 0 =
        (wSt10, RROutcome.errCb (-98)) ∧
      ∃ s2 : IndexSet,
        lookupIS (rr wSt10 { errno := -98, key := 9, sockname := none }
            wTupleKey 0).1.indexes wTupleKey = some s2 ∧ 0 ∈ s2.set) :=
  ⟨⟨by decide, rfl, by decide⟩,
   c10_rr_error_path wSt10 { errno := -98, key := 9, sockname := none }
     (by decide) wTupleKey 0 { nextIndex := 1, set := [0] } rfl
     (by decide)⟩

end ClusterChild
